import Mathlib

/-!
# Verification of the gdpr-worker reliable queue and processing pipeline

This file is a shallow embedding, in Lean 4, of the parts of the
TicketsBot-cloud/gdpr-worker repository that the specification's claims are
about:

* the reliable Redis-backed queue in `internal/gdprrelay/gdprrelay.go`
  (the evolved variant using the `tickets:gdpr:pending` / `:processing` /
  `:failed` keys): `Listen` (claim loop), `Acknowledge`, `Reject`,
  `recoverStalledRequests`, `requestsMatch`;
* the bounded-concurrency dispatcher in `cmd/main.go` (the buffered-channel
  semaphore of capacity `MaxConcurrency`);
* the JSON wire format of `QueuedRequest` under Go `encoding/json` semantics;
* the transcript redaction function `cleanMessagesInTranscript` of the
  processor.

Redis lists are modelled as Lean `List`s in `LRANGE 0 -1` (left-to-right)
order: `LPUSH` is `cons`, `RPUSH` appends on the right, `BRPOPLPUSH src dst`
pops the rightmost element of `src` and conses it onto `dst`, and
`LREM key 1 v` is `List.erase` (remove the first occurrence).  Serialized
queue entries are modelled by `Entry`: `Entry.wellFormed q` stands for the
JSON serialization of the `QueuedRequest` value `q` (which deserializes back
to `q`), and `Entry.malformed raw` stands for a string that fails to
deserialize.  Store effects that the Go code only logs (error level logs,
sleeps) are reified as explicit outputs.  The model is sequential and
store-failure-free except where a claim is about store failures
(`listenStep` takes the store response as an input).
-/

namespace GdprWorker

/-- `GDPRRequest` from `internal/gdprrelay/gdprrelay.go`.  The Go field
`Type` (an `int`-valued `RequestType`) is called `type'` here because `Type`
is not usable as a Lean field name; `uint64` fields are modelled as `Nat`,
`int` fields as `Int`. -/
structure GDPRRequest where
  type' : Int
  UserId : Nat
  GuildIds : List Nat
  TicketIds : List Int
  Language : String
  InteractionToken : String
  InteractionGuildId : Nat
  ApplicationId : Nat
deriving DecidableEq, Repr

/-- `QueuedRequest` from `internal/gdprrelay/gdprrelay.go`: the durable
envelope around a `GDPRRequest`.  `time.Time` values are modelled by their
RFC3339 string rendering. -/
structure QueuedRequest where
  Request : GDPRRequest
  QueuedAt : String
  RetryCount : Int
  LastAttemptAt : String
  RequestID : String
deriving DecidableEq, Repr

/-- A serialized entry of one of the Redis lists: either the serialization
of a `QueuedRequest` (deserializable) or a malformed string. -/
inductive Entry where
  | wellFormed (q : QueuedRequest)
  | malformed (raw : String)
deriving DecidableEq, Repr

/-- The `maxRetries = 3` constant of `gdprrelay.go`. -/
def maxRetries : Int := 3

/-- The durable queue state: the three Redis lists
`tickets:gdpr:pending`, `tickets:gdpr:processing`, `tickets:gdpr:failed`,
each in `LRANGE 0 -1` order. -/
structure RelayState where
  pending : List Entry
  processing : List Entry
  failed : List Entry
deriving DecidableEq, Repr

/-- `requestsMatch` from `gdprrelay.go`: field-by-field comparison of the
payloads (type, user id, guild ids, ticket ids).  Note that it compares no
request identifier — `GDPRRequest` carries none. -/
def requestsMatch (a b : GDPRRequest) : Bool :=
  if a.type' != b.type' || a.UserId != b.UserId then false
  else if a.GuildIds.length != b.GuildIds.length then false
  else if (List.zip a.GuildIds b.GuildIds).any (fun p => p.1 != p.2) then false
  else if a.TicketIds.length != b.TicketIds.length then false
  else if (List.zip a.TicketIds b.TicketIds).any (fun p => p.1 != p.2) then false
  else true

/-- The scan shared by `Acknowledge` and `Reject`: walk the processing list
left to right (`LRANGE 0 -1` order), skip entries that fail to deserialize,
and return the first queued request whose payload `requestsMatch`es the
argument. -/
def findMatch : List Entry → GDPRRequest → Option QueuedRequest
  | [], _ => none
  | Entry.wellFormed q :: rest, request =>
      if requestsMatch q.Request request then some q else findMatch rest request
  | Entry.malformed _ :: rest, request => findMatch rest request

/-- `Acknowledge` from `gdprrelay.go`: find the first payload-matching item
in the processing list and `LREM` it (remove the first occurrence of that
serialized value).  If nothing matches, only a warning is logged and the
state is unchanged. -/
def Acknowledge (s : RelayState) (request : GDPRRequest) : RelayState :=
  match findMatch s.processing request with
  | none => s
  | some queued => { s with processing := s.processing.erase (Entry.wellFormed queued) }

/-- `Reject` from `gdprrelay.go`: find the first payload-matching item in
the processing list, `LREM` it, increment `RetryCount`, then `LPUSH` the
re-serialized item onto `tickets:gdpr:failed` when `RetryCount >= maxRetries`
and onto `tickets:gdpr:pending` otherwise.  If nothing matches, only a
warning is logged and the state is unchanged. -/
def Reject (s : RelayState) (request : GDPRRequest) : RelayState :=
  match findMatch s.processing request with
  | none => s
  | some queued =>
      let s1 : RelayState := { s with processing := s.processing.erase (Entry.wellFormed queued) }
      let queued' : QueuedRequest := { queued with RetryCount := queued.RetryCount + 1 }
      if queued'.RetryCount ≥ maxRetries then
        { s1 with failed := Entry.wellFormed queued' :: s1.failed }
      else
        { s1 with pending := Entry.wellFormed queued' :: s1.pending }

/-- `BRPOPLPUSH tickets:gdpr:pending tickets:gdpr:processing 0` as issued by
`Listen`: atomically pop the rightmost element of the pending list and cons
it onto the processing list, returning the moved element.  Returns `none`
when the pending list is empty (in Go the call blocks). -/
def claimNext (s : RelayState) : Option (Entry × RelayState) :=
  match s.pending.getLast? with
  | none => none
  | some e =>
      some (e, { s with pending := s.pending.dropLast, processing := e :: s.processing })

/-- The outcome of the `BRPOPLPUSH` call at the top of `Listen`'s loop, as
seen by the Go code: success, the `redis.Nil` empty sentinel, or a
store-level failure. -/
inductive StoreResponse where
  | success
  | nilResponse
  | failure (msg : String)
deriving DecidableEq, Repr

/-- What one iteration of `Listen`'s `for` loop does after the claim call:
`continueLoop loggedError sleepSeconds` is a `continue` (optionally after a
`logger.Error` and a `time.Sleep`), `deliver request` is `ch <- queued.Request`,
and `exitLoop err` would be a `return` out of the loop — the constructor
exists so that its absence from `Listen`'s behaviour is a statement about
the code rather than about the type. -/
inductive LoopAction where
  | continueLoop (loggedError : Bool) (sleepSeconds : Nat)
  | deliver (request : GDPRRequest)
  | exitLoop (err : Option String)
deriving DecidableEq, Repr

/-- One iteration of the `for` loop of `Listen` (`gdprrelay.go`):
* a store failure is logged at error level, the loop sleeps 5 seconds and
  retries (`continue`);
* `redis.Nil` is an immediate `continue`;
* on success the claimed entry is deserialized; a malformed entry is logged
  at error level and `LREM`'d from the processing list (dropped), and the
  loop continues; a well-formed entry is delivered on the channel
  (`ch <- queued.Request`; the `queued.LastAttemptAt = time.Now()` write
  touches only the local copy whose `Request` field alone is sent, so it has
  no observable effect here). -/
def listenStep (resp : StoreResponse) (s : RelayState) : LoopAction × RelayState :=
  match resp with
  | StoreResponse.failure _ => (LoopAction.continueLoop true 5, s)
  | StoreResponse.nilResponse => (LoopAction.continueLoop false 0, s)
  | StoreResponse.success =>
      match claimNext s with
      | none => (LoopAction.continueLoop false 0, s)
      | some (e, s') =>
          match e with
          | Entry.malformed _ =>
              (LoopAction.continueLoop true 0, { s' with processing := s'.processing.erase e })
          | Entry.wellFormed queued => (LoopAction.deliver queued.Request, s')

/-- Running `Listen`'s loop across a whole sequence of store failures:
collects the per-iteration actions and the final state. -/
def listenFailures : List String → RelayState → List LoopAction × RelayState
  | [], s => ([], s)
  | msg :: rest, s =>
      let (a, s') := listenStep (StoreResponse.failure msg) s
      let (as, s'') := listenFailures rest s'
      (a :: as, s'')

/-- Result of `recoverStalledRequests`: the queue state, the `recovered`
counter, and the number of `logger.Error` calls (one per entry that failed
to deserialize). -/
structure RecoverResult where
  state : RelayState
  recovered : Nat
  errorsLogged : Nat
deriving DecidableEq, Repr

/-- The body of `recoverStalledRequests`' loop for one snapshot entry:
a malformed entry is logged at error level and `LREM`'d from processing
(dropped); a well-formed entry is re-serialized, `LPUSH`ed onto pending,
`LREM`'d from processing, and counted as recovered.  (The marshal and
`LPUSH` error branches of the Go code are store-failure paths, absent from
this failure-free model.) -/
def recoverStep (acc : RecoverResult) (e : Entry) : RecoverResult :=
  match e with
  | Entry.malformed _ =>
      { acc with
          state := { acc.state with processing := acc.state.processing.erase e },
          errorsLogged := acc.errorsLogged + 1 }
  | Entry.wellFormed q =>
      let s1 : RelayState := { acc.state with pending := Entry.wellFormed q :: acc.state.pending }
      { acc with
          state := { s1 with processing := s1.processing.erase e },
          recovered := acc.recovered + 1 }

/-- `recoverStalledRequests` from `gdprrelay.go`: take an `LRANGE 0 -1`
snapshot of the processing list; if it is empty, return immediately;
otherwise walk the snapshot from the last index down to 0 (modelled as a
fold over the reversed snapshot) applying `recoverStep`. -/
def recoverStalledRequests (s : RelayState) : RecoverResult :=
  if s.processing.isEmpty then { state := s, recovered := 0, errorsLogged := 0 }
  else s.processing.reverse.foldl recoverStep { state := s, recovered := 0, errorsLogged := 0 }

/-- The well-formed (deserializable) entries of a list, in order. -/
def wfItems (l : List Entry) : List Entry :=
  l.filter fun e =>
    match e with
    | Entry.wellFormed _ => true
    | Entry.malformed _ => false

/-- The malformed entries counted by `recoverStalledRequests`' error logs. -/
def malformedCount (l : List Entry) : Nat :=
  l.countP fun e =>
    match e with
    | Entry.wellFormed _ => false
    | Entry.malformed _ => true

/-- Modelled from the spec: the producer side (`Enqueue`) lives outside this
repository; §4.1 of the spec says it "wraps the request in a QueuedItem with
`attempt=0`, persists it at the tail of `pending`" (`RPUSH`), with the
globally unique `requestId` assigned at enqueue time.  `ts` is the enqueue
timestamp; the zero `time.Time` of the never-attempted item is modelled as
the empty string. -/
def Enqueue (s : RelayState) (r : GDPRRequest) (id ts : String) : RelayState :=
  { s with
      pending := s.pending ++
        [Entry.wellFormed { Request := r, QueuedAt := ts, RetryCount := 0,
                            LastAttemptAt := "", RequestID := id }] }

/-- The operations of the reliable queue, as exercised by the worker and its
producer.  `crash` is a process restart: the Redis lists are durable, so it
leaves the queue state unchanged (only the in-process channel dies, which is
not part of `RelayState`). -/
inductive Op where
  | enqueue (r : GDPRRequest) (id ts : String)
  | claim
  | acknowledge (request : GDPRRequest)
  | reject (request : GDPRRequest)
  | recoverStalled
  | crash
deriving DecidableEq, Repr

/-- Effect of one operation on the durable queue state.  A `claim` on an
empty pending list blocks in Go; here it is a no-op step. -/
def applyOp (s : RelayState) : Op → RelayState
  | Op.enqueue r id ts => Enqueue s r id ts
  | Op.claim =>
      match claimNext s with
      | none => s
      | some (_, s') => s'
  | Op.acknowledge request => Acknowledge s request
  | Op.reject request => Reject s request
  | Op.recoverStalled => (recoverStalledRequests s).state
  | Op.crash => s

/-- Run a sequence of operations. -/
def run (s : RelayState) (ops : List Op) : RelayState :=
  ops.foldl applyOp s

/-- The queue state together with ghost bookkeeping: the `requestId`s ever
enqueued and the `requestId`s of the items removed by `Acknowledge`. -/
structure TrackedState where
  state : RelayState
  enqueuedIds : List String
  ackedIds : List String
deriving DecidableEq, Repr

/-- One operation on the tracked state: the queue state evolves by
`applyOp`; `enqueue` records the new id and `acknowledge` records the id of
the item it actually removes (the first payload match, per `Acknowledge`). -/
def trackOp (t : TrackedState) (op : Op) : TrackedState :=
  { state := applyOp t.state op,
    enqueuedIds :=
      match op with
      | Op.enqueue _ id _ => id :: t.enqueuedIds
      | _ => t.enqueuedIds,
    ackedIds :=
      match op with
      | Op.acknowledge request =>
          match findMatch t.state.processing request with
          | some q => q.RequestID :: t.ackedIds
          | none => t.ackedIds
      | _ => t.ackedIds }

/-- Run a sequence of operations with ghost bookkeeping. -/
def runTracked (t : TrackedState) (ops : List Op) : TrackedState :=
  ops.foldl trackOp t

/-- The empty initial state: all three lists empty, nothing enqueued. -/
def initialTracked : TrackedState :=
  { state := { pending := [], processing := [], failed := [] },
    enqueuedIds := [], ackedIds := [] }

/-- The request ids of the well-formed entries of a list. -/
def idsIn (l : List Entry) : List String :=
  l.filterMap fun e =>
    match e with
    | Entry.wellFormed q => some q.RequestID
    | Entry.malformed _ => none

/-- An enqueued id is accounted for: acknowledged, or present in one of the
three durable lists. -/
def Covered (t : TrackedState) (id : String) : Prop :=
  id ∈ t.ackedIds ∨ id ∈ idsIn t.state.pending ∨ id ∈ idsIn t.state.processing ∨
    id ∈ idsIn t.state.failed

instance (t : TrackedState) (id : String) : Decidable (Covered t id) := by
  unfold Covered; infer_instance

/-- The dispatcher semaphore of `cmd/main.go`:
`semaphore := make(chan struct\x7b\x7d, config.Conf.MaxConcurrency)`.
The consumer goroutine sends on the semaphore *before* spawning each worker
goroutine (`semaphore <- ...` then `go func`), and every worker receives
from it in a `defer` when it finishes — deferred functions also run during
panic unwinding, so the release happens on abnormal termination too.
A send on a buffered channel completes only while fewer than
`maxConcurrency` values are buffered; a receive completes only while the
buffer is non-empty.  `ReachableSlots maxConcurrency s` says: some
interleaving of completed sends (`spawn`) and receives (`finish`) leaves `s`
slots in use, starting from `0`.  The number of buffered values is exactly
the number of workers spawned and not yet finished. -/
inductive ReachableSlots (maxConcurrency : Nat) : Nat → Prop where
  | start : ReachableSlots maxConcurrency 0
  | spawn (s : Nat) (h : ReachableSlots maxConcurrency s) (hs : s < maxConcurrency) :
      ReachableSlots maxConcurrency (s + 1)
  | finish (s : Nat) (h : ReachableSlots maxConcurrency (s + 1)) :
      ReachableSlots maxConcurrency s

/-- JSON values, for the Go `encoding/json` wire format of `QueuedRequest`.
Objects are ordered association lists. -/
inductive Json where
  | null
  | bool (b : Bool)
  | num (n : Int)
  | str (s : String)
  | arr (xs : List Json)
  | obj (fields : List (String × Json))

/-- Key lookup in a JSON object (first occurrence), `none` on non-objects. -/
def objLookup (j : Json) (k : String) : Option Json :=
  match j with
  | Json.obj fields => fields.lookup k
  | _ => none

/-- A field that Go `encoding/json` emits unless `omitempty` applies:
`omitted = true` means the value was empty and the field is skipped. -/
def omitEmpty (omitted : Bool) (k : String) (v : Json) : List (String × Json) :=
  if omitted then [] else [(k, v)]

/-- The fields `json.Marshal` emits for a `GDPRRequest`, in struct order,
honouring the `omitempty` tags of `gdprrelay.go` (`guild_ids`, `ticket_ids`,
`language`, `interaction_token`, `interaction_guild_id`, `application_id`;
`type` and `user_id` have no `omitempty`). -/
def gdprFields (r : GDPRRequest) : List (String × Json) :=
  [("type", Json.num r.type'), ("user_id", Json.num (r.UserId : Int))]
  ++ omitEmpty r.GuildIds.isEmpty "guild_ids"
       (Json.arr (r.GuildIds.map fun n : Nat => Json.num (n : Int)))
  ++ omitEmpty r.TicketIds.isEmpty "ticket_ids" (Json.arr (r.TicketIds.map Json.num))
  ++ omitEmpty (r.Language == "") "language" (Json.str r.Language)
  ++ omitEmpty (r.InteractionToken == "") "interaction_token" (Json.str r.InteractionToken)
  ++ omitEmpty (r.InteractionGuildId == 0) "interaction_guild_id"
       (Json.num (r.InteractionGuildId : Int))
  ++ omitEmpty (r.ApplicationId == 0) "application_id" (Json.num (r.ApplicationId : Int))

/-- `json.Marshal` of a `GDPRRequest`. -/
def marshalGDPRRequest (r : GDPRRequest) : Json :=
  Json.obj (gdprFields r)

/-- The fields `json.Marshal` emits for a `QueuedRequest`, in struct order.
`last_attempt_at` carries an `omitempty` tag in Go, but `time.Time` is a
struct and `omitempty` never omits struct values, so it is always emitted. -/
def queuedFields (q : QueuedRequest) : List (String × Json) :=
  [("request", marshalGDPRRequest q.Request),
   ("queued_at", Json.str q.QueuedAt),
   ("retry_count", Json.num q.RetryCount),
   ("last_attempt_at", Json.str q.LastAttemptAt),
   ("request_id", Json.str q.RequestID)]

/-- `json.Marshal` of a `QueuedRequest` — performed by `Reject` before
re-enqueueing and by `recoverStalledRequests` before requeueing. -/
def marshalQueuedRequest (q : QueuedRequest) : Json :=
  Json.obj (queuedFields q)

/-- Read an `int`-typed field the way `json.Unmarshal` does: a missing key
or JSON `null` leaves the zero value, a number is taken as-is, and any other
JSON type is an unmarshal error. -/
def getInt (fields : List (String × Json)) (k : String) : Option Int :=
  match fields.lookup k with
  | none => some 0
  | some Json.null => some 0
  | some (Json.num n) => some n
  | some _ => none

/-- Read a `uint64`-typed field: as `getInt`, but negative numbers are an
unmarshal error. -/
def getNat (fields : List (String × Json)) (k : String) : Option Nat :=
  match fields.lookup k with
  | none => some 0
  | some Json.null => some 0
  | some (Json.num n) => if n < 0 then none else some n.toNat
  | some _ => none

/-- Read a `string`-typed field. -/
def getStr (fields : List (String × Json)) (k : String) : Option String :=
  match fields.lookup k with
  | none => some ""
  | some Json.null => some ""
  | some (Json.str s) => some s
  | some _ => none

/-- Decode one element of a `[]uint64`. -/
def jsonToNat (j : Json) : Option Nat :=
  match j with
  | Json.num n => if n < 0 then none else some n.toNat
  | _ => none

/-- Decode one element of a `[]int`. -/
def jsonToInt (j : Json) : Option Int :=
  match j with
  | Json.num n => some n
  | _ => none

/-- Decode a JSON array elementwise into `uint64`s. -/
def natListOf : List Json → Option (List Nat)
  | [] => some []
  | j :: rest => (jsonToNat j).bind fun n => (natListOf rest).map fun l => n :: l

/-- Decode a JSON array elementwise into `int`s. -/
def intListOf : List Json → Option (List Int)
  | [] => some []
  | j :: rest => (jsonToInt j).bind fun n => (intListOf rest).map fun l => n :: l

/-- Read a `[]uint64`-typed field: missing or `null` leaves a nil slice
(modelled `[]`). -/
def getNatList (fields : List (String × Json)) (k : String) : Option (List Nat) :=
  match fields.lookup k with
  | none => some []
  | some Json.null => some []
  | some (Json.arr xs) => natListOf xs
  | some _ => none

/-- Read a `[]int`-typed field. -/
def getIntList (fields : List (String × Json)) (k : String) : Option (List Int) :=
  match fields.lookup k with
  | none => some []
  | some Json.null => some []
  | some (Json.arr xs) => intListOf xs
  | some _ => none

/-- The zero `GDPRRequest`, left behind by `json.Unmarshal` when the
`request` key is absent. -/
def zeroGDPRRequest : GDPRRequest :=
  { type' := 0, UserId := 0, GuildIds := [], TicketIds := [], Language := "",
    InteractionToken := "", InteractionGuildId := 0, ApplicationId := 0 }

/-- `json.Unmarshal` into a `GDPRRequest`: known keys are read, unknown keys
are ignored (standard `encoding/json` behaviour — there is no
`DisallowUnknownFields` in the code and no version field in the struct). -/
def unmarshalGDPRRequest (j : Json) : Option GDPRRequest :=
  match j with
  | Json.obj fields =>
      (getInt fields "type").bind fun t =>
      (getNat fields "user_id").bind fun uid =>
      (getNatList fields "guild_ids").bind fun gids =>
      (getIntList fields "ticket_ids").bind fun tids =>
      (getStr fields "language").bind fun lang =>
      (getStr fields "interaction_token").bind fun tok =>
      (getNat fields "interaction_guild_id").bind fun igid =>
      (getNat fields "application_id").bind fun aid =>
      some { type' := t, UserId := uid, GuildIds := gids, TicketIds := tids,
             Language := lang, InteractionToken := tok, InteractionGuildId := igid,
             ApplicationId := aid }
  | Json.null => some zeroGDPRRequest
  | _ => none

/-- `json.Unmarshal` into a `QueuedRequest` — performed by `Listen` on every
claimed entry and by `recoverStalledRequests` on every stalled entry. -/
def unmarshalQueuedRequest (j : Json) : Option QueuedRequest :=
  match j with
  | Json.obj fields =>
      (match fields.lookup "request" with
       | none => some zeroGDPRRequest
       | some jr => unmarshalGDPRRequest jr).bind fun r =>
      (getStr fields "queued_at").bind fun qa =>
      (getInt fields "retry_count").bind fun rc =>
      (getStr fields "last_attempt_at").bind fun la =>
      (getStr fields "request_id").bind fun id =>
      some { Request := r, QueuedAt := qa, RetryCount := rc, LastAttemptAt := la,
             RequestID := id }
  | _ => none

/-- `v2.User` (logarchiver model) as used by `cleanMessagesInTranscript`:
the fields the anonymized placeholder sets. -/
structure User where
  Id : Nat
  Username : String
  Avatar : String
  Bot : Bool
deriving DecidableEq, Repr

/-- `v2.Message` as used by `cleanMessagesInTranscript`: the four fields the
redaction loop reads or writes (`AuthorId`, `Content`, `Embeds`,
`Attachments`), plus `MsgId` standing for the message's remaining fields,
which the loop never touches.  `Embeds`/`Attachments` are opaque payload
lists; Go's `nil` slice is modelled as `[]`. -/
structure Message where
  MsgId : Nat
  AuthorId : Nat
  Content : String
  Embeds : List String
  Attachments : List String
deriving DecidableEq, Repr

/-- A Go `map[uint64]v2.User` as an association list; `mapSet` is map
assignment (replace the existing binding or append a new one). -/
def mapSet (m : List (Nat × User)) (k : Nat) (v : User) : List (Nat × User) :=
  match m with
  | [] => [(k, v)]
  | (k', v') :: rest => if k' = k then (k, v) :: rest else (k', v') :: mapSet rest k v

/-- `v2.Transcript.Entities` as used by `cleanMessagesInTranscript`.  The
function begins by replacing `nil` maps with empty ones; in the association
list model `nil` and empty coincide, so that initialization is the
identity.  `Channels` and `Roles` are never otherwise touched. -/
structure Entities where
  Users : List (Nat × User)
  Channels : List (Nat × String)
  Roles : List (Nat × String)
deriving DecidableEq, Repr

/-- `v2.Transcript` as used by `cleanMessagesInTranscript`. -/
structure Transcript where
  Entities : Entities
  Messages : List Message
deriving DecidableEq, Repr

/-- The anonymized placeholder user written for both the subject id and 0. -/
def anonymizedUser : User :=
  { Id := 0, Username := "Removed for privacy", Avatar := "", Bot := false }

/-- The fixed redaction notice written into matched messages. -/
def redactedContent : String :=
  "[This message was removed in accordance with data protection regulations]"

/-- The `for i, msg := range transcript.Messages` loop of
`cleanMessagesInTranscript`: every message whose `AuthorId` equals `userId`
is counted and rewritten in place (author id 0, redaction notice, embeds and
attachments niled); other messages are untouched.  The Go loop runs left to
right; this recursion processes the tail first, which yields the same list
and the same count since each position is rewritten independently. -/
def cleanMessagesLoop (userId : Nat) : List Message → List Message × Nat
  | [] => ([], 0)
  | msg :: rest =>
      let (ms, count) := cleanMessagesLoop userId rest
      if msg.AuthorId == userId then
        ({ msg with AuthorId := 0, Content := redactedContent, Embeds := [],
                    Attachments := [] } :: ms,
         count + 1)
      else
        (msg :: ms, count)

/-- `cleanMessagesInTranscript` from the processor: ensure the entity maps
exist, write the anonymized placeholder under both `userId` and `0` in the
users map, rewrite every message authored by `userId`, and return the count
of rewritten messages. -/
def cleanMessagesInTranscript (t : Transcript) (userId : Nat) : Transcript × Nat :=
  let users1 : List (Nat × User) := mapSet (mapSet t.Entities.Users userId anonymizedUser) 0 anonymizedUser
  let cleaned := cleanMessagesLoop userId t.Messages
  ({ t with Entities := { t.Entities with Users := users1 }, Messages := cleaned.1 },
   cleaned.2)

lemma zip_self_any_bne {α : Type} [DecidableEq α] (l : List α) :
    (List.zip l l).any (fun p => p.1 != p.2) = false := by
  induction l with
  | nil => rfl
  | cons a t ih => simp [List.zip, ih]

lemma requestsMatch_refl (a : GDPRRequest) : requestsMatch a a = true := by
  simp [requestsMatch, zip_self_any_bne]

/-- C1: the code locates the item to remove by comparing payload fields, not
by the unique `requestId`.  With two in-flight envelopes carrying
structurally identical payloads but distinct `RequestID`s, `Acknowledge`
(and `Reject`) — whose API receives only the payload, so no request id is
even available to them — remove the *first* payload match, `req-a`, also
when the worker that finished was the one processing `req-b`. -/
theorem acknowledge_matches_by_payload_not_by_requestId :
    let payload : GDPRRequest :=
      { type' := 0, UserId := 42, GuildIds := [], TicketIds := [], Language := "",
        InteractionToken := "", InteractionGuildId := 0, ApplicationId := 0 }
    let qA : QueuedRequest :=
      { Request := payload, QueuedAt := "t1", RetryCount := 0, LastAttemptAt := "",
        RequestID := "req-a" }
    let qB : QueuedRequest :=
      { Request := payload, QueuedAt := "t2", RetryCount := 0, LastAttemptAt := "",
        RequestID := "req-b" }
    qA.RequestID ≠ qB.RequestID
    ∧ Acknowledge { pending := [], processing := [Entry.wellFormed qA, Entry.wellFormed qB],
                    failed := [] } payload
      = { pending := [], processing := [Entry.wellFormed qB], failed := [] }
    ∧ Reject { pending := [], processing := [Entry.wellFormed qA, Entry.wellFormed qB],
               failed := [] } payload
      = { pending := [Entry.wellFormed { qA with RetryCount := 1 }],
          processing := [Entry.wellFormed qB], failed := [] } := by
  decide

/-- C3 counterexample: an in-flight item with retry counter `a = 2` satisfies
`a < maxAttempts` (`2 < 3`), yet `Reject` moves it to the dead-letter list,
not back to pending — the code's boundary is `a + 1 < maxAttempts`. -/
theorem reject_boundary_counterexample :
    let q2 : QueuedRequest :=
      { Request := zeroGDPRRequest, QueuedAt := "t0", RetryCount := 2, LastAttemptAt := "",
        RequestID := "req-c" }
    q2.RetryCount < maxRetries
    ∧ Reject { pending := [], processing := [Entry.wellFormed q2], failed := [] }
        zeroGDPRRequest
      = { pending := [], processing := [],
          failed := [Entry.wellFormed { q2 with RetryCount := 3 }] } := by
  decide

/-- C3 (amended): for an in-flight item with retry counter `a`, `Reject`
moves it back to pending with counter `a + 1` exactly when
`a + 1 < maxAttempts`, and moves it (with counter `a + 1`) to the
dead-letter list exactly when `a + 1 ≥ maxAttempts`. -/
theorem reject_retry_threshold (q : QueuedRequest) (p f : List Entry) (r : GDPRRequest)
    (hm : requestsMatch q.Request r = true) :
    Reject { pending := p, processing := [Entry.wellFormed q], failed := f } r =
      if q.RetryCount + 1 ≥ maxRetries then
        { pending := p, processing := [],
          failed := Entry.wellFormed { q with RetryCount := q.RetryCount + 1 } :: f }
      else
        { pending := Entry.wellFormed { q with RetryCount := q.RetryCount + 1 } :: p,
          processing := [], failed := f } := by
  simp only [Reject, findMatch, hm, if_true, List.erase_cons_head]

theorem reject_retry_threshold_witness :
    Reject { pending := [],
             processing := [Entry.wellFormed
               { Request := zeroGDPRRequest, QueuedAt := "t0", RetryCount := 0,
                 LastAttemptAt := "", RequestID := "w1" }],
             failed := [] } zeroGDPRRequest
      = { pending := [Entry.wellFormed
            { Request := zeroGDPRRequest, QueuedAt := "t0", RetryCount := 1,
              LastAttemptAt := "", RequestID := "w1" }],
          processing := [], failed := [] } := by
  have h := reject_retry_threshold
    { Request := zeroGDPRRequest, QueuedAt := "t0", RetryCount := 0,
      LastAttemptAt := "", RequestID := "w1" } [] [] zeroGDPRRequest (by decide)
  rw [h]
  decide

/-- C7: for every sequence of store-level failures of the blocking claim
call, every iteration of `Listen`'s loop logs the error, sleeps the fixed
5-second backoff and retries; no iteration exits the loop or propagates the
error, and the queue state is untouched. -/
theorem listen_store_errors_backoff (msgs : List String) (s : RelayState) :
    listenFailures msgs s = (msgs.map fun _ => LoopAction.continueLoop true 5, s) := by
  induction msgs with
  | nil => rfl
  | cons m rest ih => simp [listenFailures, listenStep, ih]

lemma erase_append_singleton_perm (a : Entry) :
    ∀ (rem : List Entry), ((rem ++ [a]).erase a).Perm rem := by
  intro rem
  induction rem with
  | nil => simp
  | cons b bs ih =>
      by_cases hba : b = a
      · subst hba
        simp [List.perm_append_singleton b bs]
      · have hbeq : (b == a) = false := by simp [hba]
        simpa [List.erase_cons, hbeq] using ih.cons b

lemma wfItems_cons_wf (q : QueuedRequest) (t : List Entry) :
    wfItems (Entry.wellFormed q :: t) = Entry.wellFormed q :: wfItems t := by
  simp [wfItems]

lemma wfItems_cons_mal (raw : String) (t : List Entry) :
    wfItems (Entry.malformed raw :: t) = wfItems t := by
  simp [wfItems]

lemma malformedCount_cons_wf (q : QueuedRequest) (t : List Entry) :
    malformedCount (Entry.wellFormed q :: t) = malformedCount t := by
  simp [malformedCount]

lemma malformedCount_cons_mal (raw : String) (t : List Entry) :
    malformedCount (Entry.malformed raw :: t) = malformedCount t + 1 := by
  simp [malformedCount]

lemma recover_fold (l : List Entry) :
    ∀ (s : RelayState) (n k : Nat) (rem : List Entry),
      s.processing.Perm (rem ++ l) →
      (l.reverse.foldl recoverStep ⟨s, n, k⟩).state.pending = wfItems l ++ s.pending
      ∧ (l.reverse.foldl recoverStep ⟨s, n, k⟩).state.processing.Perm rem
      ∧ (l.reverse.foldl recoverStep ⟨s, n, k⟩).state.failed = s.failed
      ∧ (l.reverse.foldl recoverStep ⟨s, n, k⟩).recovered = n + (wfItems l).length
      ∧ (l.reverse.foldl recoverStep ⟨s, n, k⟩).errorsLogged = k + malformedCount l := by
  induction l with
  | nil =>
      intro s n k rem hperm
      simpa [wfItems, malformedCount] using hperm
  | cons a t ih =>
      intro s n k rem hperm
      have hperm' : s.processing.Perm ((rem ++ [a]) ++ t) := by
        rwa [List.append_assoc, List.singleton_append]
      obtain ⟨hp, hproc, hf, hrec, herr⟩ := ih s n k (rem ++ [a]) hperm'
      have hfold :
          (a :: t).reverse.foldl recoverStep (⟨s, n, k⟩ : RecoverResult)
            = recoverStep (t.reverse.foldl recoverStep ⟨s, n, k⟩) a := by
        rw [List.reverse_cons, List.foldl_append]
        rfl
      rw [hfold]
      have herase : ((t.reverse.foldl recoverStep (⟨s, n, k⟩ : RecoverResult)).state.processing.erase a).Perm rem :=
        (hproc.erase a).trans (erase_append_singleton_perm a rem)
      set mid := t.reverse.foldl recoverStep (⟨s, n, k⟩ : RecoverResult) with hmid
      clear hmid hfold hproc hperm hperm' ih
      cases a with
      | wellFormed q =>
          refine ⟨?_, ?_, ?_, ?_, ?_⟩
          · simp [recoverStep, hp, wfItems_cons_wf]
          · simpa [recoverStep] using herase
          · simpa [recoverStep] using hf
          · simp [recoverStep, hrec, wfItems_cons_wf]
            omega
          · simpa [recoverStep, malformedCount_cons_wf] using herr
      | malformed raw =>
          refine ⟨?_, ?_, ?_, ?_, ?_⟩
          · simpa [recoverStep, wfItems_cons_mal] using hp
          · simpa [recoverStep] using herase
          · simpa [recoverStep] using hf
          · simpa [recoverStep, wfItems_cons_mal] using hrec
          · simp [recoverStep, herr, malformedCount_cons_mal]
            omega

/-- Closed form of `recoverStalledRequests`: the processing list is fully
drained; its deserializable items are prepended (unchanged) to the pending
list in their original order; the dead-letter list is untouched; the
recovered counter is the number of deserializable items and one error is
logged per malformed item. -/
lemma recoverStalledRequests_closed (s : RelayState) :
    (recoverStalledRequests s).state.pending = wfItems s.processing ++ s.pending
    ∧ (recoverStalledRequests s).state.processing = []
    ∧ (recoverStalledRequests s).state.failed = s.failed
    ∧ (recoverStalledRequests s).recovered = (wfItems s.processing).length
    ∧ (recoverStalledRequests s).errorsLogged = malformedCount s.processing := by
  unfold recoverStalledRequests
  by_cases hempty : s.processing.isEmpty
  · have h0 : s.processing = [] := by simpa [List.isEmpty_iff] using hempty
    simp [hempty, h0, wfItems, malformedCount]
  · have hperm : s.processing.Perm ([] ++ s.processing) := by simp
    obtain ⟨hp, hproc, hf, hrec, herr⟩ := recover_fold s.processing s 0 0 [] hperm
    simp only [hempty, if_false]
    exact ⟨hp, hproc.eq_nil, hf, by simpa using hrec, by simpa using herr⟩

/-- C5: `recoverStalledRequests` moves every deserializable in-flight item
back to pending — each moved entry is the identical serialized value, so its
attempt counter and payload are preserved — and drains the in-flight list;
on an empty in-flight list it is a no-op returning 0, and a second
consecutive run always recovers 0 items. -/
theorem recover_stalled_spec (s : RelayState) (p f : List Entry) :
    (recoverStalledRequests s).state.pending = wfItems s.processing ++ s.pending
    ∧ (recoverStalledRequests s).state.processing = []
    ∧ (recoverStalledRequests s).state.failed = s.failed
    ∧ (recoverStalledRequests s).recovered = (wfItems s.processing).length
    ∧ recoverStalledRequests { pending := p, processing := [], failed := f }
        = { state := { pending := p, processing := [], failed := f },
            recovered := 0, errorsLogged := 0 }
    ∧ (recoverStalledRequests (recoverStalledRequests s).state).recovered = 0 := by
  obtain ⟨hp, hproc, hf, hrec, -⟩ := recoverStalledRequests_closed s
  refine ⟨hp, hproc, hf, hrec, by simp [recoverStalledRequests], ?_⟩
  obtain ⟨-, -, -, hrec2, -⟩ := recoverStalledRequests_closed (recoverStalledRequests s).state
  rw [hrec2, hproc]
  simp [wfItems]

lemma malformed_not_mem_wfItems (raw : String) (l : List Entry) :
    Entry.malformed raw ∉ wfItems l := by
  intro h
  have := (List.mem_filter.mp h).2
  simp at this

/-- C6: a claimed queue entry whose payload fails to deserialize is removed
from the in-flight list, logged at error level, and neither re-enqueued into
pending nor dead-lettered — and the startup recovery sweep applies the same
disposition (drop from in-flight, error log, no requeue, no dead-letter), so
a malformed item is never claimed again. -/
theorem malformed_item_disposition (raw : String) (p proc f : List Entry)
    (hp : Entry.malformed raw ∉ p) :
    listenStep StoreResponse.success
        { pending := p ++ [Entry.malformed raw], processing := proc, failed := f }
      = (LoopAction.continueLoop true 0, { pending := p, processing := proc, failed := f })
    ∧ (recoverStalledRequests
         { pending := p, processing := Entry.malformed raw :: proc, failed := f }).state.processing
        = []
    ∧ (recoverStalledRequests
         { pending := p, processing := Entry.malformed raw :: proc, failed := f }).state.failed
        = f
    ∧ Entry.malformed raw ∉
        (recoverStalledRequests
          { pending := p, processing := Entry.malformed raw :: proc, failed := f }).state.pending
    ∧ 1 ≤ (recoverStalledRequests
            { pending := p, processing := Entry.malformed raw :: proc, failed := f }).errorsLogged := by
  obtain ⟨hpend, hproc, hfail, -, herr⟩ := recoverStalledRequests_closed
    { pending := p, processing := Entry.malformed raw :: proc, failed := f }
  refine ⟨?_, hproc, hfail, ?_, ?_⟩
  · simp [listenStep, claimNext, List.getLast?_concat, List.dropLast_concat,
      List.erase_cons_head]
  · rw [hpend]
    intro hmem
    rcases List.mem_append.mp hmem with hin | hin
    · exact malformed_not_mem_wfItems raw _ hin
    · exact hp hin
  · rw [herr]
    simp [malformedCount_cons_mal]

theorem malformed_item_disposition_witness :
    listenStep StoreResponse.success
        { pending := [] ++ [Entry.malformed "corrupt"], processing := [], failed := [] }
      = (LoopAction.continueLoop true 0,
         { pending := [], processing := [], failed := [] }) :=
  (malformed_item_disposition "corrupt" [] [] [] (by decide)).1

lemma mem_idsIn {id : String} {l : List Entry} :
    id ∈ idsIn l ↔ ∃ q : QueuedRequest, Entry.wellFormed q ∈ l ∧ q.RequestID = id := by
  constructor
  · intro h
    obtain ⟨e, he, hfe⟩ := List.mem_filterMap.mp h
    cases e with
    | wellFormed q => exact ⟨q, he, by simpa using hfe⟩
    | malformed raw => simp at hfe
  · rintro ⟨q, hq, rfl⟩
    exact List.mem_filterMap.mpr ⟨Entry.wellFormed q, hq, rfl⟩

lemma wf_mem_wfItems {q : QueuedRequest} {l : List Entry} (h : Entry.wellFormed q ∈ l) :
    Entry.wellFormed q ∈ wfItems l :=
  List.mem_filter.mpr ⟨h, rfl⟩

lemma mem_of_mem_wfItems {e : Entry} {l : List Entry} (h : e ∈ wfItems l) : e ∈ l := by
  unfold wfItems at h
  exact List.mem_of_mem_filter h

lemma covered_preserved (t : TrackedState) (op : Op) (id : String) (h : Covered t id) :
    Covered (trackOp t op) id := by
  cases op with
  | enqueue r nid ts =>
      rcases h with ha | hp | hpr | hf
      · exact Or.inl ha
      · refine Or.inr (Or.inl ?_)
        obtain ⟨q, hq, rfl⟩ := mem_idsIn.mp hp
        exact mem_idsIn.mpr ⟨q, List.mem_append_left _ hq, rfl⟩
      · exact Or.inr (Or.inr (Or.inl hpr))
      · exact Or.inr (Or.inr (Or.inr hf))
  | claim =>
      rcases hlast : t.state.pending.getLast? with - | e
      · have hcn : claimNext t.state = none := by simp [claimNext, hlast]
        simpa [Covered, trackOp, applyOp, hcn] using h
      · obtain ⟨ys, hys⟩ := List.getLast?_eq_some_iff.mp hlast
        have hcn : claimNext t.state = some (e,
            { pending := t.state.pending.dropLast,
              processing := e :: t.state.processing,
              failed := t.state.failed }) := by
          simp [claimNext, hlast]
        rcases h with ha | hp | hpr | hf
        · exact Or.inl ha
        · obtain ⟨q, hq, rfl⟩ := mem_idsIn.mp hp
          rw [hys] at hq
          rcases List.mem_append.mp hq with hin | hin
          · refine Or.inr (Or.inl ?_)
            refine mem_idsIn.mpr ⟨q, ?_, rfl⟩
            simp [trackOp, applyOp, hcn, hys]
            exact hin
          · have he : e = Entry.wellFormed q := by
              cases List.mem_singleton.mp hin
              rfl
            refine Or.inr (Or.inr (Or.inl ?_))
            refine mem_idsIn.mpr ⟨q, ?_, rfl⟩
            simp [trackOp, applyOp, hcn, he]
        · obtain ⟨q, hq, rfl⟩ := mem_idsIn.mp hpr
          refine Or.inr (Or.inr (Or.inl ?_))
          refine mem_idsIn.mpr ⟨q, ?_, rfl⟩
          simp [trackOp, applyOp, hcn]
          exact Or.inr hq
        · refine Or.inr (Or.inr (Or.inr ?_))
          simpa [trackOp, applyOp, hcn] using hf
  | acknowledge r =>
      rcases hfm : findMatch t.state.processing r with - | q
      · simpa [Covered, trackOp, applyOp, Acknowledge, hfm] using h
      · rcases h with ha | hp | hpr | hf
        · exact Or.inl (by simp [trackOp, hfm]; exact Or.inr ha)
        · refine Or.inr (Or.inl ?_)
          simpa [trackOp, applyOp, Acknowledge, hfm] using hp
        · by_cases hid : id = q.RequestID
          · subst hid
            exact Or.inl (by simp [trackOp, hfm])
          · obtain ⟨q', hq', rfl⟩ := mem_idsIn.mp hpr
            have hne : Entry.wellFormed q' ≠ Entry.wellFormed q := by
              intro hcontra
              cases hcontra
              exact hid rfl
            refine Or.inr (Or.inr (Or.inl ?_))
            refine mem_idsIn.mpr ⟨q', ?_, rfl⟩
            simp only [trackOp, applyOp, Acknowledge, hfm]
            exact (List.mem_erase_of_ne hne).mpr hq'
        · refine Or.inr (Or.inr (Or.inr ?_))
          simpa [trackOp, applyOp, Acknowledge, hfm] using hf
  | reject r =>
      rcases hfm : findMatch t.state.processing r with - | q
      · simpa [Covered, trackOp, applyOp, Reject, hfm] using h
      · by_cases hge : q.RetryCount + 1 ≥ maxRetries
        · have hrj : applyOp t.state (Op.reject r) =
              { pending := t.state.pending,
                processing := t.state.processing.erase (Entry.wellFormed q),
                failed := Entry.wellFormed { q with RetryCount := q.RetryCount + 1 } ::
                  t.state.failed } := by
            simp [applyOp, Reject, hfm, hge]
          rcases h with ha | hp | hpr | hf
          · exact Or.inl ha
          · exact Or.inr (Or.inl (by simpa [trackOp, hrj] using hp))
          · by_cases hid : id = q.RequestID
            · subst hid
              refine Or.inr (Or.inr (Or.inr ?_))
              refine mem_idsIn.mpr ⟨{ q with RetryCount := q.RetryCount + 1 }, ?_, rfl⟩
              simp [trackOp, hrj]
            · obtain ⟨q', hq', rfl⟩ := mem_idsIn.mp hpr
              have hne : Entry.wellFormed q' ≠ Entry.wellFormed q := by
                intro hcontra
                cases hcontra
                exact hid rfl
              refine Or.inr (Or.inr (Or.inl ?_))
              refine mem_idsIn.mpr ⟨q', ?_, rfl⟩
              simp only [trackOp, hrj]
              exact (List.mem_erase_of_ne hne).mpr hq'
          · refine Or.inr (Or.inr (Or.inr ?_))
            obtain ⟨q', hq', rfl⟩ := mem_idsIn.mp hf
            refine mem_idsIn.mpr ⟨q', ?_, rfl⟩
            simp [trackOp, hrj]
            exact Or.inr hq'
        · have hrj : applyOp t.state (Op.reject r) =
              { pending := Entry.wellFormed { q with RetryCount := q.RetryCount + 1 } ::
                  t.state.pending,
                processing := t.state.processing.erase (Entry.wellFormed q),
                failed := t.state.failed } := by
            simp [applyOp, Reject, hfm, hge]
          rcases h with ha | hp | hpr | hf
          · exact Or.inl ha
          · refine Or.inr (Or.inl ?_)
            obtain ⟨q', hq', rfl⟩ := mem_idsIn.mp hp
            refine mem_idsIn.mpr ⟨q', ?_, rfl⟩
            simp [trackOp, hrj]
            exact Or.inr hq'
          · by_cases hid : id = q.RequestID
            · subst hid
              refine Or.inr (Or.inl ?_)
              refine mem_idsIn.mpr ⟨{ q with RetryCount := q.RetryCount + 1 }, ?_, rfl⟩
              simp [trackOp, hrj]
            · obtain ⟨q', hq', rfl⟩ := mem_idsIn.mp hpr
              have hne : Entry.wellFormed q' ≠ Entry.wellFormed q := by
                intro hcontra
                cases hcontra
                exact hid rfl
              refine Or.inr (Or.inr (Or.inl ?_))
              refine mem_idsIn.mpr ⟨q', ?_, rfl⟩
              simp only [trackOp, hrj]
              exact (List.mem_erase_of_ne hne).mpr hq'
          · exact Or.inr (Or.inr (Or.inr (by simpa [trackOp, hrj] using hf)))
  | recoverStalled =>
      obtain ⟨hpend, hproc, hfail, -, -⟩ := recoverStalledRequests_closed t.state
      rcases h with ha | hp | hpr | hf
      · exact Or.inl ha
      · refine Or.inr (Or.inl ?_)
        obtain ⟨q, hq, rfl⟩ := mem_idsIn.mp hp
        refine mem_idsIn.mpr ⟨q, ?_, rfl⟩
        simp only [trackOp, applyOp, hpend]
        exact List.mem_append_right _ hq
      · refine Or.inr (Or.inl ?_)
        obtain ⟨q, hq, rfl⟩ := mem_idsIn.mp hpr
        refine mem_idsIn.mpr ⟨q, ?_, rfl⟩
        simp only [trackOp, applyOp, hpend]
        exact List.mem_append_left _ (wf_mem_wfItems hq)
      · refine Or.inr (Or.inr (Or.inr ?_))
        simpa [trackOp, applyOp, hfail] using hf
  | crash =>
      simpa [Covered, trackOp, applyOp] using h

lemma inv_run (ops : List Op) :
    ∀ (t : TrackedState), (∀ id ∈ t.enqueuedIds, Covered t id) →
      ∀ id ∈ (runTracked t ops).enqueuedIds, Covered (runTracked t ops) id := by
  induction ops with
  | nil =>
      intro t ht
      simpa [runTracked] using ht
  | cons op rest ih =>
      intro t ht
      have hstep : ∀ id ∈ (trackOp t op).enqueuedIds, Covered (trackOp t op) id := by
        intro id hid
        cases op with
        | enqueue r nid ts =>
            rcases List.mem_cons.mp (by simpa [trackOp] using hid) with rfl | hid'
            · refine Or.inr (Or.inl ?_)
              refine mem_idsIn.mpr
                ⟨{ Request := r, QueuedAt := ts, RetryCount := 0, LastAttemptAt := "",
                   RequestID := id }, ?_, rfl⟩
              simp [trackOp, applyOp, Enqueue]
            · exact covered_preserved t _ id (ht id hid')
        | claim => exact covered_preserved t _ id (ht id (by simpa [trackOp] using hid))
        | acknowledge r => exact covered_preserved t _ id (ht id (by simpa [trackOp] using hid))
        | reject r => exact covered_preserved t _ id (ht id (by simpa [trackOp] using hid))
        | recoverStalled => exact covered_preserved t _ id (ht id (by simpa [trackOp] using hid))
        | crash => exact covered_preserved t _ id (ht id (by simpa [trackOp] using hid))
      exact ih (trackOp t op) hstep

/-- C2: for every sequence of enqueue / claim / acknowledge / reject /
recover-stalled operations, including crashes (process restarts) between any
two operations, every enqueued request id is, at every reachable state,
accounted for: acknowledged, or present in the pending, in-flight
(processing) or dead-letter (failed) list — never silently absent from all
of them. -/
theorem no_enqueued_item_lost (ops : List Op) (id : String)
    (h : id ∈ (runTracked initialTracked ops).enqueuedIds) :
    Covered (runTracked initialTracked ops) id := by
  refine inv_run ops initialTracked ?_ id h
  intro id hid
  simp [initialTracked] at hid

theorem no_enqueued_item_lost_witness :
    "r1" ∈ (runTracked initialTracked
      [Op.enqueue zeroGDPRRequest "r1" "t0", Op.claim, Op.crash,
       Op.recoverStalled]).enqueuedIds
    ∧ Covered (runTracked initialTracked
        [Op.enqueue zeroGDPRRequest "r1" "t0", Op.claim, Op.crash,
         Op.recoverStalled]) "r1" :=
  ⟨by decide,
   no_enqueued_item_lost
     [Op.enqueue zeroGDPRRequest "r1" "t0", Op.claim, Op.crash, Op.recoverStalled]
     "r1" (by decide)⟩

/-- Every well-formed entry sitting in pending or processing has a retry
counter strictly below `maxRetries`. -/
def BoundedCounts (s : RelayState) : Prop :=
  ∀ q : QueuedRequest,
    (Entry.wellFormed q ∈ s.pending ∨ Entry.wellFormed q ∈ s.processing) →
      q.RetryCount < maxRetries

lemma bounded_preserved (s : RelayState) (op : Op) (h : BoundedCounts s) :
    BoundedCounts (applyOp s op) := by
  cases op with
  | enqueue r nid ts =>
      intro q hq
      rcases hq with hq | hq
      · rcases List.mem_append.mp hq with hin | hin
        · exact h q (Or.inl hin)
        · cases List.mem_singleton.mp hin
          simp [maxRetries]
      · exact h q (Or.inr hq)
  | claim =>
      rcases hlast : s.pending.getLast? with - | e
      · have hcn : claimNext s = none := by simp [claimNext, hlast]
        simpa [applyOp, hcn] using h
      · have hcn : claimNext s = some (e,
            { pending := s.pending.dropLast,
              processing := e :: s.processing,
              failed := s.failed }) := by
          simp [claimNext, hlast]
        intro q hq
        simp only [applyOp, hcn] at hq
        rcases hq with hq | hq
        · exact h q (Or.inl (List.dropLast_subset _ hq))
        · rcases List.mem_cons.mp hq with rfl | hin
          · exact h q (Or.inl (List.mem_of_getLast?_eq_some hlast))
          · exact h q (Or.inr hin)
  | acknowledge r =>
      rcases hfm : findMatch s.processing r with - | q0
      · simpa [applyOp, Acknowledge, hfm] using h
      · intro q hq
        simp only [applyOp, Acknowledge, hfm] at hq
        rcases hq with hq | hq
        · exact h q (Or.inl hq)
        · exact h q (Or.inr (List.erase_subset _ _ hq))
  | reject r =>
      rcases hfm : findMatch s.processing r with - | q0
      · simpa [applyOp, Reject, hfm] using h
      · by_cases hge : q0.RetryCount + 1 ≥ maxRetries
        · intro q hq
          simp only [applyOp, Reject, hfm, hge, if_pos] at hq
          rcases hq with hq | hq
          · exact h q (Or.inl hq)
          · exact h q (Or.inr (List.erase_subset _ _ hq))
        · intro q hq
          simp only [applyOp, Reject, hfm, hge, if_neg] at hq
          rcases hq with hq | hq
          · rcases List.mem_cons.mp hq with heq | hin
            · cases heq
              simpa using Int.lt_of_not_ge hge
            · exact h q (Or.inl hin)
          · exact h q (Or.inr (List.erase_subset _ _ hq))
  | recoverStalled =>
      obtain ⟨hpend, hproc, -, -, -⟩ := recoverStalledRequests_closed s
      intro q hq
      simp only [applyOp, hpend, hproc] at hq
      rcases hq with hq | hq
      · rcases List.mem_append.mp hq with hin | hin
        · exact h q (Or.inr (mem_of_mem_wfItems hin))
        · exact h q (Or.inl hin)
      · simp at hq
  | crash => simpa [applyOp] using h

lemma failed_monotone (s : RelayState) (op : Op) {e : Entry} (h : e ∈ s.failed) :
    e ∈ (applyOp s op).failed := by
  cases op with
  | enqueue r nid ts => simpa [applyOp, Enqueue] using h
  | claim =>
      rcases hcn : claimNext s with - | es
      · simpa [applyOp, hcn] using h
      · obtain ⟨e', s'⟩ := es
        have : s'.failed = s.failed := by
          rcases hlast : s.pending.getLast? with - | e''
          · simp [claimNext, hlast] at hcn
          · simp [claimNext, hlast] at hcn
            rw [← hcn.2]
        simp only [applyOp, hcn]
        rw [this]
        exact h
  | acknowledge r =>
      rcases hfm : findMatch s.processing r with - | q0
      · simpa [applyOp, Acknowledge, hfm] using h
      · simpa [applyOp, Acknowledge, hfm] using h
  | reject r =>
      rcases hfm : findMatch s.processing r with - | q0
      · simpa [applyOp, Reject, hfm] using h
      · by_cases hge : q0.RetryCount + 1 ≥ maxRetries
        · simp only [applyOp, Reject, hfm, hge, if_pos]
          exact List.mem_cons_of_mem _ h
        · simp only [applyOp, Reject, hfm, hge, if_neg]
          exact h
  | recoverStalled =>
      obtain ⟨-, -, hfail, -, -⟩ := recoverStalledRequests_closed s
      simpa [applyOp, hfail] using h
  | crash => simpa [applyOp] using h

lemma run_keeps_failed_and_bounded (q3 : QueuedRequest) (ops : List Op) :
    ∀ s : RelayState, Entry.wellFormed q3 ∈ s.failed → BoundedCounts s →
      Entry.wellFormed q3 ∈ (run s ops).failed ∧ BoundedCounts (run s ops) := by
  induction ops with
  | nil =>
      intro s hf hb
      exact ⟨hf, hb⟩
  | cons op rest ih =>
      intro s hf hb
      exact ih (applyOp s op) (failed_monotone s op hf) (bounded_preserved s op hb)

/-- C4: an item enqueued with retry counter 0 that is claimed and rejected
`maxAttempts` (= 3) times and never acknowledged ends in the dead-letter
list with counter 3, absent from pending and in-flight — and no sequence of
subsequent operations ever removes it from the dead-letter list or returns
it to pending (or to in-flight). -/
theorem retry_bound_dead_letter (r : GDPRRequest) (id ts : String) (ops : List Op) :
    run { pending := [], processing := [], failed := [] }
        [Op.enqueue r id ts, Op.claim, Op.reject r, Op.claim, Op.reject r,
         Op.claim, Op.reject r]
      = { pending := [], processing := [],
          failed := [Entry.wellFormed
            { Request := r, QueuedAt := ts, RetryCount := 3, LastAttemptAt := "",
              RequestID := id }] }
    ∧ Entry.wellFormed
        { Request := r, QueuedAt := ts, RetryCount := 3, LastAttemptAt := "",
          RequestID := id } ∈
        (run { pending := [], processing := [],
               failed := [Entry.wellFormed
                 { Request := r, QueuedAt := ts, RetryCount := 3, LastAttemptAt := "",
                   RequestID := id }] } ops).failed
    ∧ Entry.wellFormed
        { Request := r, QueuedAt := ts, RetryCount := 3, LastAttemptAt := "",
          RequestID := id } ∉
        (run { pending := [], processing := [],
               failed := [Entry.wellFormed
                 { Request := r, QueuedAt := ts, RetryCount := 3, LastAttemptAt := "",
                   RequestID := id }] } ops).pending
    ∧ Entry.wellFormed
        { Request := r, QueuedAt := ts, RetryCount := 3, LastAttemptAt := "",
          RequestID := id } ∉
        (run { pending := [], processing := [],
               failed := [Entry.wellFormed
                 { Request := r, QueuedAt := ts, RetryCount := 3, LastAttemptAt := "",
                   RequestID := id }] } ops).processing := by
  have hscenario : run { pending := [], processing := [], failed := [] }
      [Op.enqueue r id ts, Op.claim, Op.reject r, Op.claim, Op.reject r,
       Op.claim, Op.reject r]
    = { pending := [], processing := [],
        failed := [Entry.wellFormed
          { Request := r, QueuedAt := ts, RetryCount := 3, LastAttemptAt := "",
            RequestID := id }] } := by
    simp [run, applyOp, Enqueue, claimNext, Reject, findMatch, requestsMatch_refl,
      maxRetries]
  obtain ⟨hfmem, hbound⟩ := run_keeps_failed_and_bounded
    { Request := r, QueuedAt := ts, RetryCount := 3, LastAttemptAt := "", RequestID := id }
    ops
    { pending := [], processing := [],
      failed := [Entry.wellFormed
        { Request := r, QueuedAt := ts, RetryCount := 3, LastAttemptAt := "",
          RequestID := id }] }
    (by simp)
    (by intro q hq; rcases hq with hq | hq <;> simp at hq)
  refine ⟨hscenario, hfmem, ?_, ?_⟩
  · intro hmem
    have := hbound _ (Or.inl hmem)
    simp [maxRetries] at this
  · intro hmem
    have := hbound _ (Or.inr hmem)
    simp [maxRetries] at this

/-- C9: starting from zero slots in use, every interleaving of completed
semaphore acquisitions (each preceding a worker spawn) and releases (each
worker's deferred receive, which runs on normal and abnormal termination
alike) keeps the number of simultaneously running worker tasks at or below
the configured `maxConcurrency`. -/
theorem concurrency_bound (maxConcurrency s : Nat)
    (h : ReachableSlots maxConcurrency s) : s ≤ maxConcurrency := by
  induction h with
  | start => exact Nat.zero_le _
  | spawn s' h' hs ih => omega
  | finish s' h' ih => omega

theorem concurrency_bound_witness :
    ReachableSlots 2 1 ∧ 1 ≤ 2 :=
  ⟨ReachableSlots.spawn 0 ReachableSlots.start (by decide),
   concurrency_bound 2 1 (ReachableSlots.spawn 0 ReachableSlots.start (by decide))⟩

lemma lookup_omitEmpty_ne (b : Bool) {k k' : String} (v : Json)
    (rest : List (String × Json)) (h : (k == k') = false) :
    List.lookup k (omitEmpty b k' v ++ rest) = List.lookup k rest := by
  cases b <;> simp [omitEmpty, List.lookup, h]

lemma lookup_omitEmpty_self (b : Bool) (k : String) (v : Json)
    (rest : List (String × Json)) :
    List.lookup k (omitEmpty b k v ++ rest) =
      if b then List.lookup k rest else some v := by
  cases b <;> simp [omitEmpty, List.lookup]

lemma lookup_omitEmpty_none (b : Bool) {k k' : String} (v : Json)
    (h : (k == k') = false) :
    List.lookup k (omitEmpty b k' v) = none := by
  cases b <;> simp [omitEmpty, List.lookup, h]

lemma lookup_omitEmpty_self_last (b : Bool) (k : String) (v : Json) :
    List.lookup k (omitEmpty b k v) = if b then none else some v := by
  cases b <;> simp [omitEmpty, List.lookup]

lemma jsonToNat_natCast (n : Nat) : jsonToNat (Json.num (n : Int)) = some n := by
  show (if (n : Int) < 0 then none else some ((n : Int)).toNat) = some n
  rw [if_neg (by omega)]
  simp

lemma natListOf_map_num (l : List Nat) :
    natListOf (l.map fun n : Nat => Json.num (n : Int)) = some l := by
  induction l with
  | nil => rfl
  | cons a t ih =>
      rw [List.map_cons]
      simp only [natListOf]
      rw [jsonToNat_natCast, ih]
      rfl

lemma intListOf_map_num (l : List Int) : intListOf (l.map Json.num) = some l := by
  induction l with
  | nil => rfl
  | cons a t ih => simp [intListOf, jsonToInt, ih]

lemma gdpr_lookup_type (r : GDPRRequest) :
    getInt (gdprFields r) "type" = some r.type' := by
  simp [gdprFields, getInt, List.lookup, List.append_assoc]

lemma gdpr_lookup_user_id (r : GDPRRequest) :
    getNat (gdprFields r) "user_id" = some r.UserId := by
  have hl : List.lookup "user_id" (gdprFields r) = some (Json.num (r.UserId : Int)) := by
    simp [gdprFields, List.lookup, List.append_assoc]
  unfold getNat
  rw [hl]
  show (if (r.UserId : Int) < 0 then none else some ((r.UserId : Int)).toNat)
    = some r.UserId
  rw [if_neg (by omega)]
  simp

lemma gdpr_lookup_guild_ids (r : GDPRRequest) :
    getNatList (gdprFields r) "guild_ids" = some r.GuildIds := by
  unfold getNatList
  have hl : List.lookup "guild_ids" (gdprFields r) =
      if r.GuildIds.isEmpty then none
      else some (Json.arr (r.GuildIds.map fun n : Nat => Json.num (n : Int))) := by
    simp [gdprFields, List.append_assoc, List.lookup, lookup_omitEmpty_ne,
      lookup_omitEmpty_self, lookup_omitEmpty_none, lookup_omitEmpty_self_last]
  rw [hl]
  by_cases hg : r.GuildIds.isEmpty
  · have : r.GuildIds = [] := by simpa [List.isEmpty_iff] using hg
    simp [hg, this]
  · simp [hg, natListOf_map_num]

lemma gdpr_lookup_ticket_ids (r : GDPRRequest) :
    getIntList (gdprFields r) "ticket_ids" = some r.TicketIds := by
  unfold getIntList
  have hl : List.lookup "ticket_ids" (gdprFields r) =
      if r.TicketIds.isEmpty then none
      else some (Json.arr (r.TicketIds.map Json.num)) := by
    simp [gdprFields, List.append_assoc, List.lookup, lookup_omitEmpty_ne,
      lookup_omitEmpty_self, lookup_omitEmpty_none, lookup_omitEmpty_self_last]
  rw [hl]
  by_cases ht : r.TicketIds.isEmpty
  · have : r.TicketIds = [] := by simpa [List.isEmpty_iff] using ht
    simp [ht, this]
  · simp [ht, intListOf_map_num]

lemma gdpr_lookup_language (r : GDPRRequest) :
    getStr (gdprFields r) "language" = some r.Language := by
  unfold getStr
  have hl : List.lookup "language" (gdprFields r) =
      if r.Language == "" then none else some (Json.str r.Language) := by
    simp [gdprFields, List.append_assoc, List.lookup, lookup_omitEmpty_ne,
      lookup_omitEmpty_self, lookup_omitEmpty_none, lookup_omitEmpty_self_last]
  rw [hl]
  by_cases hs : r.Language = ""
  · simp [hs]
  · simp [hs]

lemma gdpr_lookup_interaction_token (r : GDPRRequest) :
    getStr (gdprFields r) "interaction_token" = some r.InteractionToken := by
  unfold getStr
  have hl : List.lookup "interaction_token" (gdprFields r) =
      if r.InteractionToken == "" then none else some (Json.str r.InteractionToken) := by
    simp [gdprFields, List.append_assoc, List.lookup, lookup_omitEmpty_ne,
      lookup_omitEmpty_self, lookup_omitEmpty_none, lookup_omitEmpty_self_last]
  rw [hl]
  by_cases hs : r.InteractionToken = ""
  · simp [hs]
  · simp [hs]

lemma gdpr_lookup_interaction_guild_id (r : GDPRRequest) :
    getNat (gdprFields r) "interaction_guild_id" = some r.InteractionGuildId := by
  unfold getNat
  have hl : List.lookup "interaction_guild_id" (gdprFields r) =
      if r.InteractionGuildId == 0 then none
      else some (Json.num (r.InteractionGuildId : Int)) := by
    simp [gdprFields, List.append_assoc, List.lookup, lookup_omitEmpty_ne,
      lookup_omitEmpty_self, lookup_omitEmpty_none, lookup_omitEmpty_self_last]
  rw [hl]
  by_cases hz : r.InteractionGuildId = 0
  · simp [hz]
  · rw [if_neg (by simpa using hz)]
    show (if (r.InteractionGuildId : Int) < 0 then none
          else some ((r.InteractionGuildId : Int)).toNat)
      = some r.InteractionGuildId
    rw [if_neg (by omega)]
    simp

lemma gdpr_lookup_application_id (r : GDPRRequest) :
    getNat (gdprFields r) "application_id" = some r.ApplicationId := by
  unfold getNat
  have hl : List.lookup "application_id" (gdprFields r) =
      if r.ApplicationId == 0 then none
      else some (Json.num (r.ApplicationId : Int)) := by
    simp [gdprFields, List.append_assoc, List.lookup, lookup_omitEmpty_ne,
      lookup_omitEmpty_self, lookup_omitEmpty_none, lookup_omitEmpty_self_last]
  rw [hl]
  by_cases hz : r.ApplicationId = 0
  · simp [hz]
  · rw [if_neg (by simpa using hz)]
    show (if (r.ApplicationId : Int) < 0 then none
          else some ((r.ApplicationId : Int)).toNat)
      = some r.ApplicationId
    rw [if_neg (by omega)]
    simp

lemma unmarshal_marshal_gdpr (r : GDPRRequest) :
    unmarshalGDPRRequest (marshalGDPRRequest r) = some r := by
  rw [marshalGDPRRequest]
  simp [unmarshalGDPRRequest, gdpr_lookup_type, gdpr_lookup_user_id,
    gdpr_lookup_guild_ids, gdpr_lookup_ticket_ids, gdpr_lookup_language,
    gdpr_lookup_interaction_token, gdpr_lookup_interaction_guild_id,
    gdpr_lookup_application_id]

/-- C8 (amended): deserializing then re-serializing — as `Reject` and
`recoverStalledRequests` do — is exact on the known fields: for every
`QueuedRequest` value, `json.Unmarshal` of its `json.Marshal` output
reconstructs exactly the same value.  (Unknown fields do not survive the
round-trip — see the counterexample — and the record carries no version
field.) -/
theorem json_roundtrip_known_fields (q : QueuedRequest) :
    unmarshalQueuedRequest (marshalQueuedRequest q) = some q := by
  have hreq : List.lookup "request" (queuedFields q) =
      some (marshalGDPRRequest q.Request) := by
    simp [queuedFields, List.lookup]
  have hqa : getStr (queuedFields q) "queued_at" = some q.QueuedAt := by
    simp [queuedFields, getStr, List.lookup]
  have hrc : getInt (queuedFields q) "retry_count" = some q.RetryCount := by
    simp [queuedFields, getInt, List.lookup]
  have hla : getStr (queuedFields q) "last_attempt_at" = some q.LastAttemptAt := by
    simp [queuedFields, getStr, List.lookup]
  have hid : getStr (queuedFields q) "request_id" = some q.RequestID := by
    simp [queuedFields, getStr, List.lookup]
  rw [marshalQueuedRequest]
  simp [unmarshalQueuedRequest, hreq, hqa, hrc, hla, hid, unmarshal_marshal_gdpr]

/-- A serialized queue record written by another producer: the same known
fields a worker would write, plus one extra (unknown) field. -/
def cexJson : Json :=
  Json.obj [("request", Json.obj [("type", Json.num 0), ("user_id", Json.num 42)]),
            ("queued_at", Json.str "2024-01-01T00:00:00Z"),
            ("retry_count", Json.num 0),
            ("last_attempt_at", Json.str "2024-01-01T00:00:00Z"),
            ("request_id", Json.str "req-x"),
            ("producer_extra_field", Json.num 7)]

/-- The `QueuedRequest` that `cexJson` deserializes to. -/
def cexQueued : QueuedRequest :=
  { Request := { type' := 0, UserId := 42, GuildIds := [], TicketIds := [],
                 Language := "", InteractionToken := "", InteractionGuildId := 0,
                 ApplicationId := 0 },
    QueuedAt := "2024-01-01T00:00:00Z", RetryCount := 0,
    LastAttemptAt := "2024-01-01T00:00:00Z", RequestID := "req-x" }

/-- C8 counterexample: a record carrying an unknown optional field
deserializes successfully, but re-serializing — the deserialize/re-serialize
cycle `Reject` and `recoverStalledRequests` perform — does not reproduce the
record: the unknown field is dropped (Go `encoding/json` ignores unknown
keys and the struct has no version field), so the round-trip is not exact. -/
theorem json_roundtrip_counterexample :
    unmarshalQueuedRequest cexJson = some cexQueued
    ∧ marshalQueuedRequest cexQueued ≠ cexJson := by
  constructor
  · rfl
  · intro h
    have h1 : (objLookup (marshalQueuedRequest cexQueued) "producer_extra_field").isSome
        = false := by rfl
    rw [h] at h1
    have h2 : (objLookup cexJson "producer_extra_field").isSome = true := by rfl
    exact Bool.noConfusion (h2.symm.trans h1)

lemma lookup_mapSet_self (m : List (Nat × User)) (k : Nat) (v : User) :
    List.lookup k (mapSet m k v) = some v := by
  induction m with
  | nil => simp [mapSet, List.lookup]
  | cons p rest ih =>
      obtain ⟨k', v'⟩ := p
      by_cases h : k' = k
      · subst h
        simp [mapSet, List.lookup]
      · have hb : (k == k') = false := by
          simp [Ne.symm h]
        simp [mapSet, h, List.lookup, hb, ih]

lemma lookup_mapSet_ne (m : List (Nat × User)) (k k' : Nat) (v : User) (h : k' ≠ k) :
    List.lookup k' (mapSet m k v) = List.lookup k' m := by
  have hb : (k' == k) = false := by simp [h]
  induction m with
  | nil => simp [mapSet, List.lookup, hb]
  | cons p rest ih =>
      obtain ⟨a, b⟩ := p
      by_cases ha : a = k
      · subst ha
        simp [mapSet, List.lookup, hb]
      · simp [mapSet, ha, List.lookup, ih]

lemma cleanMessagesLoop_eq (u : Nat) (l : List Message) :
    cleanMessagesLoop u l =
      (l.map fun m =>
         if m.AuthorId == u then
           { m with AuthorId := 0, Content := redactedContent, Embeds := [],
                    Attachments := [] }
         else m,
       l.countP fun m => m.AuthorId == u) := by
  induction l with
  | nil => rfl
  | cons m rest ih =>
      rw [cleanMessagesLoop, ih]
      by_cases h : (m.AuthorId == u) = true
      · rw [beq_iff_eq] at h
        simp [h, List.countP_cons]
      · rw [beq_iff_eq] at h
        simp [h, List.countP_cons]

/-- C10: the message-cleaning function returns exactly the number of
messages authored by `u`; afterwards every message authored by `u` has
author id 0, the fixed redaction notice as content, and nil embeds and
attachments, every other message is unchanged, the users entity map sends
both `u` and `0` to the anonymized placeholder, and the channel and role
entity maps are untouched. -/
theorem clean_messages_in_transcript_spec (t : Transcript) (u : Nat) :
    (cleanMessagesInTranscript t u).2 = t.Messages.countP (fun m => m.AuthorId == u)
    ∧ (cleanMessagesInTranscript t u).1.Messages
        = t.Messages.map (fun m =>
            if m.AuthorId == u then
              { m with AuthorId := 0, Content := redactedContent, Embeds := [],
                       Attachments := [] }
            else m)
    ∧ List.lookup u (cleanMessagesInTranscript t u).1.Entities.Users = some anonymizedUser
    ∧ List.lookup 0 (cleanMessagesInTranscript t u).1.Entities.Users = some anonymizedUser
    ∧ (cleanMessagesInTranscript t u).1.Entities.Channels = t.Entities.Channels
    ∧ (cleanMessagesInTranscript t u).1.Entities.Roles = t.Entities.Roles := by
  refine ⟨?_, ?_, ?_, ?_, ?_, ?_⟩
  · simp [cleanMessagesInTranscript, cleanMessagesLoop_eq]
  · simp [cleanMessagesInTranscript, cleanMessagesLoop_eq]
  · by_cases hu : u = 0
    · subst hu
      simp [cleanMessagesInTranscript, lookup_mapSet_self]
    · simp only [cleanMessagesInTranscript]
      rw [lookup_mapSet_ne _ _ _ _ hu, lookup_mapSet_self]
  · simp [cleanMessagesInTranscript, lookup_mapSet_self]
  · simp [cleanMessagesInTranscript]
  · simp [cleanMessagesInTranscript]

end GdprWorker
